import Mathlib

/-!
Verification development for the housing-map repository.

The definitions below are a shallow embedding of the Python sources:
firestore_service.py (record normalizer, identity deriver, upsert engine,
bulk clear) and Home.py (batch geocode-and-scrape pipeline).  Machine
strings are Lean Strings restricted to the ASCII behaviour of the Python
string methods used by the code; raw tabular cell values are modelled as
strings (the code paths guarded by isinstance(value, str)); time stamps
produced by datetime.now are modelled as an explicit clock argument.
-/

namespace HousingMap

/-! ### Python string primitives -/

/-- Python str.lower, ASCII level. -/
def strLower (s : String) : String := ⟨s.data.map Char.toLower⟩

/-- Python str.strip with no argument: drop leading and trailing whitespace. -/
def pyStrip (s : String) : String :=
  ⟨((s.data.dropWhile Char.isWhitespace).reverse.dropWhile Char.isWhitespace).reverse⟩

/-- Whether the first list is a prefix of the second. -/
def listStartsWith : List Char → List Char → Bool
  | [], _ => true
  | _ :: _, [] => false
  | a :: as, b :: bs => a = b && listStartsWith as bs

/-- Whether the first list occurs contiguously inside the second. -/
def listInfix (needle : List Char) : List Char → Bool
  | [] => needle.isEmpty
  | c :: t => listStartsWith needle (c :: t) || listInfix needle t

/-- Python substring test: needle in hay. -/
def substr (needle hay : String) : Bool := listInfix needle.data hay.data

/-- Python str.startswith. -/
def pyStartsWith (s pre : String) : Bool := listStartsWith pre.data s.data

/-- Python str.isdigit: nonempty and all characters are digits (ASCII level). -/
def pyIsDigit (s : String) : Bool := !s.data.isEmpty && s.data.all Char.isDigit

/-- Numeric value of a list of decimal digit characters. -/
def digitsToNat (ds : List Char) : Nat :=
  ds.foldl (fun n c => 10 * n + (c.toNat - '0'.toNat)) 0

/-- First maximal run of decimal digits, as produced by the first match of
the regular expression for one or more digits in re.findall. -/
def firstDigits (cs : List Char) : Option (List Char) :=
  match cs.dropWhile (fun c => !c.isDigit) with
  | [] => none
  | rest => some (rest.takeWhile Char.isDigit)

/-- First match of the pattern digits, optional dot, digits used by the
numeric-count branches of the normalizer (re.findall of a decimal token). -/
def firstNumToken (cs : List Char) : Option (List Char) :=
  match cs.dropWhile (fun c => !c.isDigit) with
  | [] => none
  | rest =>
      let ds := rest.takeWhile Char.isDigit
      match rest.dropWhile Char.isDigit with
      | '.' :: tail => some (ds ++ '.' :: tail.takeWhile Char.isDigit)
      | _ => some ds

/-- Python int(float(token)) for a nonnegative decimal token: the integer part. -/
def tokenIntPart (tok : List Char) : Nat := digitsToNat (tok.takeWhile Char.isDigit)

/-- Python float(token) for a nonnegative decimal token, as a rational. -/
def tokenToRat (tok : List Char) : ℚ :=
  let ip := tok.takeWhile Char.isDigit
  let fp := ((tok.dropWhile Char.isDigit).drop 1).takeWhile Char.isDigit
  (digitsToNat ip : ℚ) + (digitsToNat fp : ℚ) / (10 : ℚ) ^ fp.length

/-- Python float(s) on a plain decimal string: optional sign, digits with an
optional dot.  Returns none where the Python call raises ValueError.
Exponent and special forms are outside the modelled input language. -/
def pyFloat? (s : String) : Option ℚ :=
  let t := (pyStrip s).data
  let (sgn, u) : ℚ × List Char :=
    match t with
    | '-' :: r => (-1, r)
    | '+' :: r => (1, r)
    | _ => (1, t)
  let ip := u.takeWhile Char.isDigit
  match u.dropWhile Char.isDigit with
  | [] => if ip.isEmpty then none else some (sgn * (digitsToNat ip : ℚ))
  | '.' :: tail =>
      let fp := tail.takeWhile Char.isDigit
      if !(tail.dropWhile Char.isDigit).isEmpty then none
      else if ip.isEmpty && fp.isEmpty then none
      else some (sgn * ((digitsToNat ip : ℚ) + (digitsToNat fp : ℚ) / (10 : ℚ) ^ fp.length))
  | _ => none

/-! ### Python dict model

Documents and update payloads are Python dicts with string keys.  An
assignment to an existing key replaces the value in place; an assignment to
a fresh key appends it, matching dict insertion-order semantics. -/

inductive Value where
  | str (s : String)
  | int (n : Int)
  | bool (b : Bool)
  | rat (q : ℚ)
  | dict (entries : List (String × Value))

abbrev Doc := List (String × Value)

/-- Dict assignment: replace the first binding of the key, else append. -/
def dset : Doc → String → Value → Doc
  | [], k, v => [(k, v)]
  | (k', v') :: rest, k, v =>
      if k' = k then (k, v) :: rest else (k', v') :: dset rest k v

/-- Dict lookup. -/
def dget? : Doc → String → Option Value
  | [], _ => none
  | (k', v) :: rest, k => if k' = k then some v else dget? rest k

/-- Lookup inside a dict-shaped value. -/
def dictGet? (v : Value) (k : String) : Option Value :=
  match v with
  | .dict es => dget? es k
  | _ => none

/-- Python d.update(u): fold the entries of u into d in order. -/
def dmerge (d u : Doc) : Doc := u.foldl (fun acc kv => dset acc kv.1 kv.2) d

/-- Python comparison of a dict value against a string literal: only a string
value can compare equal. -/
def pyEqStr (v? : Option Value) (s : String) : Bool :=
  match v? with
  | some (.str t) => t = s
  | _ => false

/-! ### Fixed vocabularies of FirestoreService._parse_and_clean_data -/

/-- AMENITY_CATEGORIES of _parse_and_clean_data, in source order. -/
def AMENITY_CATEGORIES : List (String × List String) :=
  [("community",
    ["clubhouse", "fitness_center", "gym", "pool", "spa", "hot_tub", "sauna",
     "business_center", "conference_room", "rooftop_deck", "courtyard",
     "playground", "dog_park", "barbecue_area", "fire_pit", "game_room",
     "theater_room", "library", "concierge", "doorman", "security"]),
   ("indoor",
    ["air_conditioning", "heating", "hardwood_floors", "carpet", "tile_floors",
     "walk_in_closet", "ceiling_fans", "fireplace", "balcony", "patio",
     "bay_windows", "high_ceilings", "loft", "den", "office_space"]),
   ("kitchen",
    ["dishwasher", "garbage_disposal", "microwave", "refrigerator", "stove",
     "oven", "granite_counters", "stainless_steel_appliances", "island",
     "breakfast_bar", "pantry", "wine_fridge"]),
   ("other",
    ["parking_garage", "covered_parking", "laundry_in_unit", "laundry_on_site",
     "elevator", "wheelchair_accessible", "storage_unit", "bike_storage"])]

/-- UTILITIES of _parse_and_clean_data. -/
def UTILITIES : List String :=
  ["electricity", "gas", "water", "sewer", "trash", "internet", "cable"]

/-! ### Field parsers of FirestoreService._parse_and_clean_data -/

/-- Python s.replace(from, to) for single characters. -/
def charReplace (s : String) (a b : Char) : String :=
  ⟨s.data.map (fun c => if c = a then b else c)⟩

/-- Key normalization: key.lower().replace(space, underscore). -/
def cleanKeyOf (k : String) : String := charReplace (strLower k) ' ' '_'

/-- The name variations checked per amenity: the canonical name and its
space- and hyphen-joined forms. -/
def amenityVariations (a : String) : List String :=
  [a, charReplace a '_' ' ', charReplace a '_' '-']

/-- Whether some variation of the amenity name occurs in the lowercased text. -/
def amenityFound (valueStr : String) (a : String) : Bool :=
  (amenityVariations a).any (fun v => substr v valueStr)

/-- The all-false amenity table the amenities branch starts from. -/
def initAmenities : List (String × List (String × Bool)) :=
  AMENITY_CATEGORIES.map (fun p => (p.1, p.2.map (fun a => (a, false))))

/-- The marking pass of the amenities branch: an entry becomes true when some
variation of its name occurs in the text. -/
def markAmenities (valueStr : String) (tbl : List (String × List (String × Bool))) :
    List (String × List (String × Bool)) :=
  tbl.map (fun p => (p.1, p.2.map (fun e => (e.1, e.2 || amenityFound valueStr e.1))))

/-- Amenities branch: structured boolean flags over the fixed vocabulary. -/
def parseAmenities (value : String) : Value :=
  let valueStr := strLower value
  .dict ((markAmenities valueStr initAmenities).map
    (fun p => (p.1, .dict (p.2.map (fun e => (e.1, Value.bool e.2))))))

def ownerWords : List String := ["included", "owner", "landlord", "paid"]

def tenantWords : List String := ["tenant", "renter", "separate"]

/-- Status assigned to one utility by the utilities branch. -/
def utilityStatus (valueStr : String) (u : String) : String :=
  if substr u valueStr then
    if ownerWords.any (fun w => substr w valueStr) then "owner"
    else if tenantWords.any (fun w => substr w valueStr) then "tenant"
    else "tenant"
  else "unknown"

/-- Utilities branch: owner/tenant/unknown per fixed utility. -/
def parseUtilities (value : String) : Value :=
  let valueStr := strLower value
  .dict (UTILITIES.map (fun u => (u, Value.str (utilityStatus valueStr u))))

/-- The candidate zip text: the stripped value, with everything from the
first hyphen on split off when a hyphen is present. -/
def zipCandidate (value : String) : String :=
  if (pyStrip value).data.contains '-'
  then (⟨(pyStrip value).data.takeWhile (fun c => c ≠ '-')⟩ : String)
  else pyStrip value

/-- Zip branch: strip, split off a hyphenated suffix, accept exactly five
digits, else drop the field. -/
def parseZip (value : String) : Option Nat :=
  if pyIsDigit (zipCandidate value) && (zipCandidate value).data.length == 5
  then some (digitsToNat (zipCandidate value).data)
  else none

def noParkingWords : List String := ["no parking", "none", "n/a", "not available"]

def truthyWords : List String := ["true", "yes", "1", "y", "available", "vacant"]

/-- Case-insensitive literal match at the head of the input; returns the
remainder after the literal. -/
def matchLit : List Char → List Char → Option (List Char)
  | [], cs => some cs
  | _ :: _, [] => none
  | l :: ls, c :: cs => if l.toLower = c.toLower then matchLit ls cs else none

/-- Greedy match, with backtracking, of the first regex alternative of the
square-footage cleaner: sq, optional dot, optional whitespace, ft, optional
dot.  Returns the remainder after the match. -/
def matchSqFt (cs : List Char) : Option (List Char) :=
  match matchLit ['s', 'q'] cs with
  | none => none
  | some r =>
      let afterWs (x : List Char) : List (List Char) :=
        match x with
        | c :: t => if c.isWhitespace then [t, x] else [x]
        | [] => [x]
      let dotOpts : List (List Char) :=
        match r with
        | '.' :: t => [t, r]
        | _ => [r]
      (dotOpts.flatMap afterWs).findSome? (fun r₂ =>
        match matchLit ['f', 't'] r₂ with
        | none => none
        | some r₃ =>
            match r₃ with
            | '.' :: t => some t
            | _ => some r₃)

/-- Second regex alternative of the square-footage cleaner: square, optional
whitespace, feet. -/
def matchSquareFeet (cs : List Char) : Option (List Char) :=
  match matchLit ['s', 'q', 'u', 'a', 'r', 'e'] cs with
  | none => none
  | some r =>
      let opts : List (List Char) :=
        match r with
        | c :: t => if c.isWhitespace then [t, r] else [r]
        | [] => [r]
      opts.findSome? (matchLit ['f', 'e', 'e', 't'])

/-- One leftmost match of the square-footage cleaning pattern: the sq-ft
form, the square-feet form, or a single whitespace character. -/
def matchSqFtAlt (cs : List Char) : Option (List Char) :=
  match matchSqFt cs with
  | some r => some r
  | none =>
      match matchSquareFeet cs with
      | some r => some r
      | none =>
          match cs with
          | c :: t => if c.isWhitespace then some t else none
          | [] => none

/-- Fuel-bounded driver of re.sub for the square-footage pattern: delete
leftmost non-overlapping matches.  Every match consumes at least one
character, so fuel equal to the input length suffices. -/
def reSubSqFtAux : Nat → List Char → List Char
  | 0, cs => cs
  | _ + 1, [] => []
  | fuel + 1, c :: t =>
      match matchSqFtAlt (c :: t) with
      | some r => reSubSqFtAux fuel r
      | none => c :: reSubSqFtAux fuel t

/-- re.sub removing square-footage unit suffixes and whitespace. -/
def reSubSqFt (cs : List Char) : List Char := reSubSqFtAux cs.length cs

def numKeys : List String := ["bedrooms", "bathrooms", "parking", "parking_spots"]

def intNumKeys : List String := ["bedrooms", "parking", "parking_spots"]

def parkingKeys : List String := ["parking", "parking_spots"]

def sqftKeys : List String := ["square_feet", "sqft", "sq_ft", "size"]

def areaKeys : List String := ["area", "neighborhood", "location"]

def rentKeys : List String := ["rent", "price", "monthly_rent", "cost"]

def zipKeys : List String := ["zip_code", "zipcode", "postal_code"]

def subsidyKeys : List String := ["subsidy_accepted", "subsidies", "subsidy"]

def availKeys : List String := ["available", "availability"]

def amenityKeys : List String := ["amenities", "amenity"]

def utilityKeys : List String := ["utilities", "utility"]

def coordKeys : List String := ["latitude", "lat", "longitude", "lng", "lon"]

/-- Dispatch of _parse_and_clean_data on one cleaned key and one raw string
value: the binding written into cleaned_data, or none when the branch stores
nothing.  Every branch of the Python loop body performs at most one
assignment, which this function returns. -/
def parseField (cleanKey : String) (value : String) : Option (String × Value) :=
  if cleanKey ∈ numKeys then
    if substr "studio" (strLower value) then
      some (cleanKey, if cleanKey = "bedrooms" then .int 0 else .str value)
    else if cleanKey ∈ parkingKeys ∧ noParkingWords.any (fun w => substr w (strLower value)) then
      some (cleanKey, .int 0)
    else
      match firstNumToken value.data with
      | some tok =>
          if cleanKey ∈ intNumKeys
          then some (cleanKey, .int (tokenIntPart tok))
          else some (cleanKey, .rat (tokenToRat tok))
      | none =>
          if cleanKey ∈ parkingKeys
          then some (cleanKey, .int 0)
          else some (cleanKey, .str value)
  else if cleanKey ∈ sqftKeys then
    match firstDigits (reSubSqFt value.data) with
    | some ds => some ("square_feet", .int (digitsToNat ds))
    | none => none
  else if cleanKey ∈ areaKeys then
    some ("area", .str (pyStrip value))
  else if cleanKey ∈ rentKeys then
    match firstDigits (value.data.filter (fun c => !(c = '$' || c = ',' || c.isWhitespace))) with
    | some ds => some (cleanKey, .int (digitsToNat ds))
    | none => none
  else if cleanKey ∈ zipKeys then
    match parseZip value with
    | some z => some ("zip_code", .int z)
    | none => none
  else if cleanKey ∈ subsidyKeys then
    some ("subsidy", .dict
      [("hacla", .bool (substr "hacla" (strLower value))),
       ("bc", .bool (substr "bc" (strLower value) || substr "housing choice" (strLower value)))])
  else if cleanKey ∈ availKeys then
    some ("available", .bool (decide (strLower value ∈ truthyWords)))
  else if cleanKey ∈ amenityKeys then
    some ("amenities", parseAmenities value)
  else if cleanKey ∈ utilityKeys then
    some ("utilities", parseUtilities value)
  else if cleanKey ∈ coordKeys then
    match pyFloat? value with
    | some q => some (cleanKey, .rat q)
    | none => some (cleanKey, .str value)
  else if cleanKey ≠ "flexible_data" then
    some (cleanKey, .str (pyStrip value))
  else none

/-- A raw uploaded row: column name to raw cell value.  An empty value models
the skipped empty/null/NaN cells. -/
abbrev Row := List (String × String)

/-- Python row.get with a default. -/
def rget (row : Row) (k dflt : String) : String :=
  match row with
  | [] => dflt
  | (k', v) :: rest => if k' = k then v else rget rest k dflt

/-- FirestoreService._parse_and_clean_data over a raw row: dispatch every
nonempty cell through parseField, then always set favorite to false. -/
def parseAndCleanData (rowData : Row) : Doc :=
  let cleaned := rowData.foldl (fun acc kv =>
    if kv.2 = "" then acc
    else
      match parseField (cleanKeyOf kv.1) kv.2 with
      | some (k, v) => dset acc k v
      | none => acc) []
  dset cleaned "favorite" (.bool false)

/-! ### Identity deriver: FirestoreService._sanitize_unit_id

The datetime.now fallback is modelled by an explicit clock string passed to
the function; the Python function reads the clock implicitly. -/

/-- A word character of the regex character class: alphanumeric or
underscore (ASCII level). -/
def isWordChar (c : Char) : Bool := c.isAlphanum || c = '_'

/-- re.sub collapsing every run of two or more hyphens into one. -/
def collapseDashes : List Char → List Char
  | [] => []
  | [c] => [c]
  | c₁ :: c₂ :: rest =>
      if c₁ = '-' && c₂ = '-' then collapseDashes (c₂ :: rest)
      else c₁ :: collapseDashes (c₂ :: rest)

/-- Python s.strip(hyphen): drop leading and trailing hyphens. -/
def stripDashes (cs : List Char) : List Char :=
  ((cs.dropWhile (fun c => c = '-')).reverse.dropWhile (fun c => c = '-')).reverse

/-- The sanitization core: join with underscores, lowercase, spaces to
hyphens, drop non word/hyphen characters, collapse hyphen runs, strip. -/
def sanitizeCore (address unitNumber zipCode : String) : String :=
  let rawId := ((address.data ++ '_' :: unitNumber.data ++ '_' :: zipCode.data).map
    Char.toLower).map (fun c => if c = ' ' then '-' else c)
  let filtered := rawId.filter (fun c => isWordChar c || c = '-')
  ⟨stripDashes (collapseDashes filtered)⟩

/-- FirestoreService._sanitize_unit_id: the sanitization core, with a
clock-derived fallback when the result is shorter than three characters,
truncated to 1500 characters. -/
def sanitizeUnitId (now : String) (address unitNumber zipCode : String) : String :=
  let s := sanitizeCore address unitNumber zipCode
  let final := if s.data.length < 3 then "unit_" ++ now else s
  ⟨final.data.take 1500⟩

/-! ### Upsert engine: FirestoreService.upload_from_dataframe -/

/-- The keyed document store, document id to document. -/
abbrev Store := List (String × Doc)

def sget? : Store → String → Option Doc
  | [], _ => none
  | (k', d) :: rest, k => if k' = k then some d else sget? rest k

def sset : Store → String → Doc → Store
  | [], k, d => [(k, d)]
  | (k', d') :: rest, k, d =>
      if k' = k then (k, d) :: rest else (k', d') :: sset rest k d

/-- The tracking fields defaulted to the empty string on insert. -/
def trackingFields : List String :=
  ["level_of_interest", "viewing_scheduled", "availability_verified_date",
   "amenities", "questions_for_agent", "notes"]

structure UploadState where
  store : Store
  insertCount : Nat
  updateCount : Nat

/-- One iteration of the upload loop over a row with already-normalized
column names: skip rows missing address or zip, else upsert by derived id.
An update carries last_seen_date and status and, when the stored document
has one, the existing favorite value; the store applies it as a field-level
merge.  An insert merges the metadata fields and defaults the tracking
fields. -/
def uploadRow (now : String) (st : UploadState) (row : Row) : UploadState :=
  let address := pyStrip (rget row "property_address" "")
  let unitNum := pyStrip (rget row "unit" "")
  let zipCode := pyStrip (rget row "zip_code" "")
  if address = "" ∨ zipCode = "" then st
  else
    let docId := sanitizeUnitId now address unitNum zipCode
    let unitData := parseAndCleanData row
    match sget? st.store docId with
    | some existingData =>
        let upd₁ := dset (dset unitData "last_seen_date" (.str now)) "status" (.str "available")
        let updateData :=
          match dget? existingData "favorite" with
          | some fv => dset upd₁ "favorite" fv
          | none => upd₁
        { store := sset st.store docId (dmerge existingData updateData),
          insertCount := st.insertCount,
          updateCount := st.updateCount + 1 }
    | none =>
        let newData :=
          dset (dset (dset (dset (dset unitData
            "id" (.str docId))
            "first_seen_date" (.str now))
            "last_seen_date" (.str now))
            "status" (.str "available"))
            "batch_id" (.str ("batch_" ++ now))
        let newData := trackingFields.foldl (fun d f =>
          if (dget? d f).isSome then d else dset d f (.str "")) newData
        { store := sset st.store docId newData,
          insertCount := st.insertCount + 1,
          updateCount := st.updateCount }

/-- Column-name normalization applied to the whole frame before the loop. -/
def normalizeColumns (row : Row) : Row :=
  row.map (fun kv => (cleanKeyOf kv.1, kv.2))

/-- FirestoreService.upload_from_dataframe: fold the upload loop over the
rows; returns the final store with the insert and update counts. -/
def uploadFromDataframe (now : String) (store : Store) (rows : List Row) :
    Store × Nat × Nat :=
  let final := rows.foldl (fun st row => uploadRow now st (normalizeColumns row))
    ⟨store, 0, 0⟩
  (final.store, final.insertCount, final.updateCount)

/-! ### Bulk clear: FirestoreService.clear_database

Only the sizes of the committed mutation batches matter to the claim; the
model returns, in order, the number of delete mutations in every commit the
method issues. -/

/-- The units-collection loop: count each delete, commit whenever the count
reaches a multiple of 500, and commit the remainder after the loop. -/
def unitsCommits : Nat → Nat → Nat → List Nat
  | 0, count, pending => if count % 500 ≠ 0 then [pending] else []
  | n + 1, count, pending =>
      if (count + 1) % 500 = 0
      then (pending + 1) :: unitsCommits n (count + 1) 0
      else unitsCommits n (count + 1) (pending + 1)

/-- FirestoreService.clear_database: the units collection is deleted with a
commit every 500 mutations; the geocoding_failures collection is deleted
with one unconditional commit holding every failure document. -/
def clearDatabaseCommits (unitsCount failuresCount : Nat) : List Nat :=
  unitsCommits unitsCount 0 0 ++ [failuresCount]

/-! ### Batch pipeline: HousingDataProcessor in Home.py

The geocoding client and the enrichment HTTP client are oracles passed as
function arguments; every invocation of either is recorded in a call trace,
and every store write is recorded in an update trace.  A unit whose
listing_link cell is NaN makes _scrape_listing_data raise an uncaught
AttributeError (the float has no startswith method) which future.result()
re-raises inside process_all_units, so the pipeline functions return in an
exception monad. -/

/-- A pandas cell as seen by the pipeline: null (missing or NaN), a number,
or a leftover string. -/
inductive PdVal where
  | null
  | num (q : ℚ)
  | str (s : String)

/-- pd.isnull on a cell. -/
def PdVal.isNull : PdVal → Bool
  | .null => true
  | _ => false

/-- pd.to_numeric(errors=coerce) followed by isnull: true when the cell
holds neither a number nor a numeric string. -/
def PdVal.coerceIsNull : PdVal → Bool
  | .null => true
  | .num _ => false
  | .str s => (pyFloat? s).isNone

/-- The listing_link cell handed to _process_unit by row.get: None when the
column is absent, the float NaN when the cell is empty in a column that
holds strings elsewhere, or the link string itself. -/
inductive LinkCell where
  | none
  | nan
  | str (s : String)
deriving DecidableEq

/-- Python truthiness of the cell: None is falsy, the float NaN is truthy,
a string is truthy when nonempty. -/
def LinkCell.truthy : LinkCell → Bool
  | .none => false
  | .nan => true
  | .str s => !(s == "")

/-- An uncaught Python exception escaping the pass. -/
inductive PyError where
  | attributeError
deriving DecidableEq

/-- One unit row as consumed by _process_unit. -/
structure HUnit where
  id : Option String
  property_address : String
  zip_code : String
  listing_link : LinkCell
  latitude : PdVal

/-- A geocoding result: the coordinates dict written to the store. -/
structure Geo where
  latitude : ℚ
  longitude : ℚ
  display_name : String

/-- The outcome of the enrichment HTTP request: a parsed JSON body, an HTTP
error status raised by raise_for_status, or a connection-level failure. -/
inductive FetchResult where
  | ok (data : Doc)
  | httpError (code : Nat)
  | connError

/-- External invocations made by the pipeline. -/
inductive Call where
  | geocodeCall (address zipCode : String)
  | fetchCall (url : String)
deriving DecidableEq

/-- Store writes made by the pipeline. -/
inductive UpdateOp where
  | updateUnit (id : Option String) (data : Doc)
  | logGeocodingFailure (id : Option String)

/-- Truthiness of a requests Response object: its bool conversion returns
the ok flag, which is false exactly when raise_for_status would raise
(status 400 to 599). -/
def responseTruthy (code : Nat) : Bool := !(400 ≤ code && code < 600)

/-- HousingDataProcessor._scrape_listing_data: a falsy cell (None or the
empty string) and a non-http url are rejected without a request; a NaN cell
passes the falsyness check (NaN is truthy) and then raises AttributeError
when startswith is called on the float, before any request; otherwise
fetch.  On an HTTP error the 404 branch additionally requires the response
object to be truthy, which a 404 response never is, so the off-market dict
is unreachable. -/
def scrapeListingData (fetch : String → FetchResult) (cell : LinkCell) :
    Except PyError (Option Doc × List Call) :=
  match cell with
  | .none => .ok (none, [])
  | .nan => .error .attributeError
  | .str url =>
      if url = "" || !pyStartsWith url "http" then .ok (none, [])
      else
        match fetch url with
        | .ok d => .ok (some d, [.fetchCall url])
        | .httpError code =>
            .ok (if responseTruthy code && code == 404
                 then some [("status", Value.str "off_market")]
                 else none,
                 [.fetchCall url])
        | .connError => .ok (none, [.fetchCall url])

/-- The coordinates update written after a successful geocode. -/
def coordsDoc (g : Geo) : Doc :=
  [("latitude", .rat g.latitude), ("longitude", .rat g.longitude),
   ("display_name", .str g.display_name)]

/-- The scraping stage of _process_unit, entered with the updates and calls
accumulated by the geocoding stage; the stage is attempted exactly when the
listing cell is truthy, and an exception raised inside the scrape escapes
the stage. -/
def scrapeStage (fetch : String → FetchResult) (u : HUnit)
    (upds : List UpdateOp) (calls : List Call) :
    Except PyError (String × List UpdateOp × List Call) :=
  if u.listing_link.truthy then
    match scrapeListingData fetch u.listing_link with
    | .error e => .error e
    | .ok (some d, cs) =>
        if pyEqStr (dget? d "status") "off_market"
        then .ok ("Processed",
              upds ++ [.updateUnit u.id [("status", Value.str "off_market")]],
              calls ++ cs)
        else .ok ("Processed", upds ++ [.updateUnit u.id d], calls ++ cs)
    | .ok (none, cs) => .ok ("Scraping Failed", upds, calls ++ cs)
  else .ok ("Processed (No Scrape)", upds, calls)

/-- HousingDataProcessor._process_unit: geocode when latitude is null, then
scrape when the listing cell is truthy; returns the reported status string
with the update and call traces, or the exception escaping the worker. -/
def processUnit (geocode : String → String → Option Geo)
    (fetch : String → FetchResult) (u : HUnit) :
    Except PyError (String × List UpdateOp × List Call) :=
  if u.latitude.isNull then
    match geocode u.property_address u.zip_code with
    | some g =>
        scrapeStage fetch u [.updateUnit u.id (coordsDoc g)]
          [.geocodeCall u.property_address u.zip_code]
    | none =>
        .ok ("Geocoding Failed", [.logGeocodingFailure u.id],
         [.geocodeCall u.property_address u.zip_code])
  else scrapeStage fetch u [] []

/-- The outcome counters of process_all_units. -/
structure Counts where
  processed : Nat
  geocoding_failed : Nat
  scraping_failed : Nat
  processed_no_scrape : Nat
deriving DecidableEq

def Counts.zero : Counts := ⟨0, 0, 0, 0⟩

/-- The aggregation step of process_all_units: bump the counter named by the
status string; unknown strings are not counted. -/
def bump (c : Counts) (status : String) : Counts :=
  if status = "Processed" then { c with processed := c.processed + 1 }
  else if status = "Geocoding Failed" then
    { c with geocoding_failed := c.geocoding_failed + 1 }
  else if status = "Scraping Failed" then
    { c with scraping_failed := c.scraping_failed + 1 }
  else if status = "Processed (No Scrape)" then
    { c with processed_no_scrape := c.processed_no_scrape + 1 }
  else c

/-- The selection predicate of process_all_units: units whose latitude is
missing or not numeric. -/
def needsGeocoding (u : HUnit) : Bool := u.latitude.coerceIsNull

/-- Successive batches of the given size, as sliced by the batch loop. -/
def chunksOf (b : Nat) : List α → List (List α)
  | [] => []
  | x :: xs => (x :: xs).take b :: chunksOf b (xs.drop (b - 1))
termination_by l => l.length
decreasing_by simp [List.length_drop]; omega

/-- The aggregation over the units of one batch: bump the counter named by
each unit result and extend the traces; the first exception re-raised by
future.result() aborts the aggregation. -/
def runUnits (geocode : String → String → Option Geo)
    (fetch : String → FetchResult) :
    List HUnit → Counts × List UpdateOp × List Call →
    Except PyError (Counts × List UpdateOp × List Call)
  | [], acc => .ok acc
  | u :: t, acc =>
      match processUnit geocode fetch u with
      | .error e => .error e
      | .ok r => runUnits geocode fetch t (bump acc.1 r.1, acc.2.1 ++ r.2.1, acc.2.2 ++ r.2.2)

/-- The sequential batch loop of process_all_units: an exception escaping
one batch aborts the pass. -/
def runBatches (geocode : String → String → Option Geo)
    (fetch : String → FetchResult) :
    List (List HUnit) → Counts × List UpdateOp × List Call →
    Except PyError (Counts × List UpdateOp × List Call)
  | [], acc => .ok acc
  | batch :: rest, acc =>
      match runUnits geocode fetch batch acc with
      | .error e => .error e
      | .ok acc' => runBatches geocode fetch rest acc'

/-- HousingDataProcessor.process_all_units: select the units needing
geocoding, return zero counts immediately when there are none, else process
the selection in batches and aggregate the per-unit outcomes; an uncaught
worker exception escapes the pass, which then reports no counts at all. -/
def processAllUnits (geocode : String → String → Option Geo)
    (fetch : String → FetchResult) (batchSize : Nat) (units : List HUnit) :
    Except PyError (Counts × List UpdateOp × List Call) :=
  let toProcess := units.filter needsGeocoding
  if toProcess.length = 0 then .ok (Counts.zero, [], [])
  else runBatches geocode fetch (chunksOf batchSize toProcess) (Counts.zero, [], [])

/-! ### Observation helpers used by the theorems -/

/-- Key list of a dict-shaped value. -/
def dictKeys? (v : Value) : Option (List String) :=
  match v with
  | .dict es => some (es.map Prod.fst)
  | _ => none

/-- The two-level key skeleton of an amenities value: each category name
paired with its amenity names. -/
def amenitySkeleton? (v : Value) : Option (List (String × List String)) :=
  match v with
  | .dict es => some (es.map (fun e =>
      (e.1, match e.2 with
            | .dict inner => inner.map Prod.fst
            | _ => [])))
  | _ => none

/-- Whether a unit terminates the pass in the geocoding-failed outcome: its
latitude cell is null and the geocoder returns nothing. -/
def geoFails (geocode : String → String → Option Geo) (u : HUnit) : Bool :=
  u.latitude.isNull && (geocode u.property_address u.zip_code).isNone

/-- Truthiness of the listing link in _process_unit. -/
def hasLink (u : HUnit) : Bool := u.listing_link.truthy

/-- A unit whose listing cell cannot raise: anything but the NaN cell. -/
def linkSafe (u : HUnit) : Bool :=
  match u.listing_link with
  | .nan => false
  | _ => true

/-- Whether the scraping stage would obtain data for the unit. -/
def scrapeOk (fetch : String → FetchResult) (u : HUnit) : Bool :=
  match scrapeListingData fetch u.listing_link with
  | .ok (some _, _) => true
  | _ => false

/-- Whether a unit result is a normal return carrying the given status. -/
def okWithStatus (x : Except PyError (String × List UpdateOp × List Call))
    (s : String) : Bool :=
  match x with
  | .ok r => r.1 == s
  | .error _ => false

/-- A row the upload loop does not skip: nonempty stripped address and zip
after column normalization. -/
def rowWellFormed (row : Row) : Bool :=
  !(pyStrip (rget (normalizeColumns row) "property_address" "") == "") &&
  !(pyStrip (rget (normalizeColumns row) "zip_code" "") == "")

/-! ### Concrete witness inputs -/

/-- Four units: one failing geocoding, one geocoding and scraping, one
geocoding with no link, one already geocoded. -/
def c3Units : List HUnit :=
  [{ id := some "u1", property_address := "1 Bad St", zip_code := "90001",
     listing_link := .none, latitude := .null },
   { id := some "u2", property_address := "2 Good St", zip_code := "90002",
     listing_link := .str "http://listing.example/2", latitude := .null },
   { id := some "u3", property_address := "3 Good St", zip_code := "90003",
     listing_link := .none, latitude := .null },
   { id := some "u4", property_address := "4 Done St", zip_code := "90004",
     listing_link := .str "http://listing.example/4", latitude := .num 34 }]

/-- A geocoder failing exactly on the first address. -/
def c3Geocode : String → String → Option Geo :=
  fun a _ => if a = "1 Bad St" then none else some ⟨34, -118, "resolved"⟩

/-- An enrichment client returning one parsed field for every url. -/
def c3Fetch : String → FetchResult :=
  fun _ => .ok [("rent", .int 1000)]

/-- A selected unit whose listing_link cell is the float NaN, as produced
for a linkless unit by a DataFrame whose link column holds strings
elsewhere. -/
def c3NanUnit : HUnit :=
  { id := some "u6", property_address := "6 Nan St", zip_code := "90006",
    listing_link := .nan, latitude := .null }

/-- The document id the upload loop derives for a raw row. -/
def rowDocId (now : String) (row : Row) : String :=
  sanitizeUnitId now
    (pyStrip (rget (normalizeColumns row) "property_address" ""))
    (pyStrip (rget (normalizeColumns row) "unit" ""))
    (pyStrip (rget (normalizeColumns row) "zip_code" ""))

/-- A well-formed raw row for the upload witness. -/
def c1Row : Row := [("Property Address", "123 Main St"), ("Zip Code", "90001")]

/-- A store already holding the witness row under its derived id, with the
favorite flag set. -/
def c1Store : Store := [(rowDocId "t0" c1Row, [("favorite", Value.bool true)])]

/-! ### Helper lemmas about the dict model -/

theorem dget_dset_self (d : Doc) (k : String) (v : Value) :
    dget? (dset d k v) k = some v := by
  induction d with
  | nil => simp [dset, dget?]
  | cons kv rest ih =>
      by_cases h : kv.1 = k
      · simp [dset, dget?, h]
      · simp [dset, dget?, h, ih]

theorem dget_dset_ne (d : Doc) (k k' : String) (v : Value) (h : k' ≠ k) :
    dget? (dset d k v) k' = dget? d k' := by
  induction d with
  | nil => simp [dset, dget?, Ne.symm h]
  | cons kv rest ih =>
      by_cases hk : kv.1 = k
      · simp only [dset, if_pos hk, dget?]
        have : ¬ k = k' := fun hc => h (hc.symm)
        have hk1 : ¬ kv.1 = k' := fun hc => h (hk ▸ hc).symm
        simp [this, hk1]
      · simp only [dset, if_neg hk, dget?]
        by_cases hk' : kv.1 = k'
        · simp [hk']
        · simp [hk', ih]

theorem mem_keys_dset (d : Doc) (k a : String) (v : Value) :
    a ∈ (dset d k v).map Prod.fst → a ∈ d.map Prod.fst ∨ a = k := by
  induction d with
  | nil =>
      intro h
      simp [dset] at h
      exact Or.inr h
  | cons kv rest ih =>
      intro h
      by_cases hk : kv.1 = k
      · simp only [dset, if_pos hk, List.map_cons, List.mem_cons] at h
        rcases h with h | h
        · exact Or.inr (h.trans rfl)
        · exact Or.inl (by simp only [List.map_cons, List.mem_cons]; exact Or.inr h)
      · simp only [dset, if_neg hk, List.map_cons, List.mem_cons] at h
        rcases h with h | h
        · exact Or.inl (by simp only [List.map_cons, List.mem_cons]; exact Or.inl h)
        · rcases ih h with h' | h'
          · exact Or.inl (by simp only [List.map_cons, List.mem_cons]; exact Or.inr h')
          · exact Or.inr h'

theorem nodup_keys_dset (d : Doc) (k : String) (v : Value)
    (h : (d.map Prod.fst).Nodup) : ((dset d k v).map Prod.fst).Nodup := by
  induction d with
  | nil => simp [dset]
  | cons kv rest ih =>
      by_cases hk : kv.1 = k
      · simpa [dset, hk] using h
      · simp only [List.map_cons, List.nodup_cons] at h
        simp only [dset, if_neg hk, List.map_cons]
        refine List.nodup_cons.mpr ⟨?_, ih h.2⟩
        intro hmem
        rcases mem_keys_dset rest k kv.1 v hmem with h' | h'
        · exact h.1 h'
        · exact hk h'

theorem dget_eq_none_of_not_mem (d : Doc) (k : String)
    (h : k ∉ d.map Prod.fst) : dget? d k = none := by
  induction d with
  | nil => rfl
  | cons kv rest ih =>
      simp only [List.map_cons, List.mem_cons] at h
      push_neg at h
      simp [dget?, Ne.symm h.1, ih h.2]

theorem dget_mem (d : Doc) (k : String) (v : Value) :
    dget? d k = some v → (k, v) ∈ d := by
  induction d with
  | nil => intro h; simp [dget?] at h
  | cons kv rest ih =>
      intro h
      cases kv with
      | mk k' v' =>
          by_cases hk : k' = k
          · subst hk
            simp only [dget?, if_pos rfl] at h
            injection h with h2
            rw [← h2]
            exact List.mem_cons_self _ _
          · simp only [dget?, if_neg hk] at h
            exact List.mem_cons_of_mem _ (ih h)

theorem dget_dmerge_of_none (u e : Doc) (k : String)
    (h : dget? u k = none) : dget? (dmerge e u) k = dget? e k := by
  induction u generalizing e with
  | nil => rfl
  | cons kv rest ih =>
      simp only [dget?] at h
      by_cases hk : kv.1 = k
      · simp [hk] at h
      · simp only [hk, if_false] at h
        simp only [dmerge, List.foldl_cons]
        have := ih (dset e kv.1 kv.2) h
        simp only [dmerge] at this
        rw [this, dget_dset_ne _ _ _ _ (fun hc => hk hc.symm)]

theorem dget_dmerge_of_some (u e : Doc) (k : String) (v : Value)
    (hnd : (u.map Prod.fst).Nodup) (h : dget? u k = some v) :
    dget? (dmerge e u) k = some v := by
  induction u generalizing e with
  | nil => simp [dget?] at h
  | cons kv rest ih =>
      simp only [List.map_cons, List.nodup_cons] at hnd
      cases kv with
      | mk k' v' =>
          by_cases hk : k' = k
          · subst hk
            simp only [dget?, if_pos rfl] at h
            injection h with h2
            have hrest : dget? rest k' = none :=
              dget_eq_none_of_not_mem rest k' hnd.1
            simp only [dmerge, List.foldl_cons]
            have hnone := dget_dmerge_of_none rest (dset e k' v') k' hrest
            simp only [dmerge] at hnone
            rw [hnone, dget_dset_self, h2]
          · simp only [dget?, if_neg hk] at h
            simp only [dmerge, List.foldl_cons]
            have := ih hnd.2 h (e := dset e k' v')
            simpa [dmerge] using this

theorem sget_sset_self (s : Store) (k : String) (d : Doc) :
    sget? (sset s k d) k = some d := by
  induction s with
  | nil => simp [sset, sget?]
  | cons kv rest ih =>
      by_cases h : kv.1 = k
      · simp [sset, sget?, h]
      · simp [sset, sget?, h, ih]

theorem zipCandidate_data (v : String) :
    (zipCandidate v).data = (pyStrip v).data.takeWhile (fun c => c ≠ '-') := by
  unfold zipCandidate
  by_cases hc : (pyStrip v).data.contains '-'
  · rw [if_pos hc]
  · rw [if_neg hc]
    have hc' : (pyStrip v).data.contains '-' = false := by
      cases h : (pyStrip v).data.contains '-'
      · rfl
      · exact absurd h hc
    have hmem : '-' ∉ (pyStrip v).data := by simpa using hc'
    refine (List.takeWhile_eq_self_iff.mpr ?_).symm
    intro x hx
    simp only [ne_eq, decide_eq_true_eq]
    exact fun he => hmem (he ▸ hx)

/-- C9: zip-code normalization: the input 90001-1234 yields zip 90001, the
input abc leaves the field unset, and in general a value is accepted only
when, after splitting off any hyphenated suffix from the stripped text, the
remainder is exactly five digits, whose numeric value is stored. -/
theorem zip_normalization :
    parseZip "90001-1234" = some 90001 ∧
    parseZip "abc" = none ∧
    ∀ v n, parseZip v = some n →
      ((pyStrip v).data.takeWhile (fun c => c ≠ '-')).length = 5 ∧
      ((pyStrip v).data.takeWhile (fun c => c ≠ '-')).all Char.isDigit = true ∧
      n = digitsToNat ((pyStrip v).data.takeWhile (fun c => c ≠ '-')) := by
  refine ⟨by decide, by decide, ?_⟩
  intro v n h
  rw [← zipCandidate_data]
  unfold parseZip at h
  by_cases hacc : (pyIsDigit (zipCandidate v) && (zipCandidate v).data.length == 5) = true
  · rw [if_pos hacc] at h
    injection h with h2
    obtain ⟨h3, h4⟩ := Bool.and_eq_true_iff.mp hacc
    unfold pyIsDigit at h3
    obtain ⟨-, h5⟩ := Bool.and_eq_true_iff.mp h3
    refine ⟨?_, h5, h2.symm⟩
    simpa using h4
  · rw [if_neg hacc] at h
    exact absurd h (by simp)

/-- Witness for the universally quantified part of the C9 theorem at the
concrete accepted input 90001-1234. -/
theorem zip_normalization_witness :
    ((pyStrip "90001-1234").data.takeWhile (fun c => c ≠ '-')).length = 5 :=
  (zip_normalization.2.2 "90001-1234" 90001 (by decide)).1

/-- C8: the bulk clear batches the units collection in commits of at most
500 deletions, but it clears the geocoding_failures collection in one
unconditional commit: with 501 failure documents the method issues a single
commit holding 501 delete mutations, exceeding the batch limit the claim
asserts for every collection. -/
theorem clear_database_oversized_failures_commit :
    clearDatabaseCommits 0 501 = [501] ∧
    ∃ n ∈ clearDatabaseCommits 0 501, 500 < n := by
  constructor
  · decide
  · exact ⟨501, by decide, by decide⟩

/-- C2 counterexample: the identity deriver consults the clock when the
sanitized id is shorter than three characters, so the same three inputs
derive different ids at different call times. -/
theorem sanitize_clock_dependent :
    sanitizeUnitId "20250101000000" "" "" "" ≠
    sanitizeUnitId "20250101000001" "" "" "" := by decide

/-- C2 amended: whenever the sanitized id has at least three characters the
fallback is not taken and the derived id is independent of the clock, hence
equal across repeated calls; and at any fixed call time, address and unit
inputs differing only in letter case derive the same id. -/
theorem sanitize_deterministic_unless_fallback :
    (∀ now now' a u z, ¬ (sanitizeCore a u z).data.length < 3 →
        sanitizeUnitId now a u z = sanitizeUnitId now' a u z) ∧
    (∀ now a a' u u' z, strLower a = strLower a' → strLower u = strLower u' →
        sanitizeUnitId now a u z = sanitizeUnitId now a' u' z) := by
  constructor
  · intro now now' a u z h
    unfold sanitizeUnitId
    simp only [if_neg h]
  · intro now a a' u u' z h₁ h₂
    have ha' : a.data.map Char.toLower = a'.data.map Char.toLower :=
      congrArg String.data h₁
    have hu' : u.data.map Char.toLower = u'.data.map Char.toLower :=
      congrArg String.data h₂
    have hcore : sanitizeCore a u z = sanitizeCore a' u' z := by
      unfold sanitizeCore
      simp only [List.map_append, List.map_cons]
      rw [ha', hu']
    unfold sanitizeUnitId
    rw [hcore]

/-- Witness for the C2 amended theorem: a concrete non-degenerate input is
clock-independent, and a concrete case variation derives the same id. -/
theorem sanitize_deterministic_unless_fallback_witness :
    sanitizeUnitId "20250101000000" "123 Main St" "4B" "90001" =
      sanitizeUnitId "20250101000001" "123 Main St" "4B" "90001" ∧
    sanitizeUnitId "20250101000000" "123 MAIN st" "4b" "90001" =
      sanitizeUnitId "20250101000000" "123 main ST" "4B" "90001" :=
  ⟨sanitize_deterministic_unless_fallback.1 "20250101000000" "20250101000001"
      "123 Main St" "4B" "90001" (by decide),
   sanitize_deterministic_unless_fallback.2 "20250101000000"
      "123 MAIN st" "123 main ST" "4b" "4B" "90001" (by decide) (by decide)⟩

theorem amenitySkeleton_parseAmenities (value : String) :
    amenitySkeleton? (parseAmenities value) = some AMENITY_CATEGORIES := rfl

theorem parseAmenities_entry_values (value c : String) (inner : List (String × Value)) :
    dictGet? (parseAmenities value) c = some (Value.dict inner) →
    ∀ p ∈ inner, p.2 = Value.bool (amenityFound (strLower value) p.1) := by
  intro h p hp
  unfold parseAmenities at h
  simp only [dictGet?] at h
  have hmem := dget_mem _ _ _ h
  rw [List.mem_map] at hmem
  obtain ⟨q, hq, he⟩ := hmem
  have h2 : Value.dict (q.2.map (fun e => (e.1, Value.bool e.2))) = Value.dict inner :=
    congrArg Prod.snd he
  injection h2 with h3
  rw [← h3] at hp
  rw [List.mem_map] at hp
  obtain ⟨e, he2, rfl⟩ := hp
  simp only []
  unfold markAmenities at hq
  rw [List.mem_map] at hq
  obtain ⟨r, hr, rfl⟩ := hq
  simp only [] at he2
  rw [List.mem_map] at he2
  obtain ⟨e0, he0, rfl⟩ := he2
  simp only []
  unfold initAmenities at hr
  rw [List.mem_map] at hr
  obtain ⟨s, _, rfl⟩ := hr
  simp only [] at he0
  rw [List.mem_map] at he0
  obtain ⟨a, _, rfl⟩ := he0
  simp [Bool.false_or]

theorem dictKeys_parseUtilities (value : String) :
    dictKeys? (parseUtilities value) = some UTILITIES := rfl

theorem parseUtilities_entry_values (value : String) (es : List (String × Value)) :
    parseUtilities value = Value.dict es →
    ∀ p ∈ es, p.2 = Value.str (utilityStatus (strLower value) p.1) := by
  intro h p hp
  unfold parseUtilities at h
  injection h with h2
  rw [← h2] at hp
  rw [List.mem_map] at hp
  obtain ⟨u, _, rfl⟩ := hp
  rfl

set_option maxHeartbeats 2000000 in
theorem parseField_dict_vals (ck v k : String) (val : Value)
    (h : parseField ck v = some (k, val)) :
    (k = "amenities" → val = parseAmenities v) ∧
    (k = "utilities" → val = parseUtilities v) := by
  unfold parseField at h
  repeat' split at h
  all_goals (try exact Option.noConfusion h)
  all_goals simp only [Option.some.injEq, Prod.mk.injEq] at h
  all_goals obtain ⟨h1, h2⟩ := h
  all_goals subst h1
  all_goals subst h2
  all_goals constructor
  all_goals intro hx
  all_goals
    first
    | rfl
    | exact absurd hx (by decide)
    | (subst hx
       simp_all [numKeys, intNumKeys, parkingKeys, sqftKeys, areaKeys, rentKeys,
         zipKeys, subsidyKeys, availKeys, amenityKeys, utilityKeys, coordKeys])

theorem parse_dict_fields_from_branches (row : Row) :
    (∀ v, dget? (parseAndCleanData row) "amenities" = some v →
        ∃ raw, v = parseAmenities raw) ∧
    (∀ v, dget? (parseAndCleanData row) "utilities" = some v →
        ∃ raw, v = parseUtilities raw) := by
  unfold parseAndCleanData
  rw [dget_dset_ne _ _ _ _ (by decide), dget_dset_ne _ _ _ _ (by decide)]
  suffices h : ∀ (rs : Row) (acc : Doc),
      (∀ v, dget? acc "amenities" = some v → ∃ raw, v = parseAmenities raw) →
      (∀ v, dget? acc "utilities" = some v → ∃ raw, v = parseUtilities raw) →
      (∀ v, dget? (rs.foldl (fun acc kv =>
          if kv.2 = "" then acc
          else
            match parseField (cleanKeyOf kv.1) kv.2 with
            | some (k, v) => dset acc k v
            | none => acc) acc) "amenities" = some v → ∃ raw, v = parseAmenities raw) ∧
      (∀ v, dget? (rs.foldl (fun acc kv =>
          if kv.2 = "" then acc
          else
            match parseField (cleanKeyOf kv.1) kv.2 with
            | some (k, v) => dset acc k v
            | none => acc) acc) "utilities" = some v → ∃ raw, v = parseUtilities raw) by
    exact h row [] (by intro v hv; exact Option.noConfusion hv)
      (by intro v hv; exact Option.noConfusion hv)
  intro rs
  induction rs with
  | nil => intro acc ha hu; exact ⟨ha, hu⟩
  | cons kv t ih =>
      intro acc ha hu
      simp only [List.foldl_cons]
      by_cases he : kv.2 = ""
      · rw [if_pos he]
        exact ih acc ha hu
      · rw [if_neg he]
        cases hp : parseField (cleanKeyOf kv.1) kv.2 with
        | none => exact ih acc ha hu
        | some p =>
            cases p with
            | mk k val =>
                apply ih
                · intro v hv
                  by_cases hk : k = "amenities"
                  · subst hk
                    rw [dget_dset_self] at hv
                    injection hv with hv2
                    exact ⟨kv.2, hv2.symm.trans
                      ((parseField_dict_vals _ _ _ _ hp).1 rfl)⟩
                  · rw [dget_dset_ne _ _ _ _ (fun hc => hk hc.symm)] at hv
                    exact ha v hv
                · intro v hv
                  by_cases hk : k = "utilities"
                  · subst hk
                    rw [dget_dset_self] at hv
                    injection hv with hv2
                    exact ⟨kv.2, hv2.symm.trans
                      ((parseField_dict_vals _ _ _ _ hp).2 rfl)⟩
                  · rw [dget_dset_ne _ _ _ _ (fun hc => hk hc.symm)] at hv
                    exact hu v hv

/-- C4: for any input row, whenever the normalized record carries an
amenities mapping its key skeleton is exactly the fixed vocabulary of
categories and amenity names, with every entry false unless some variation
of the amenity name occurs in the raw text; and whenever it carries a
utilities mapping its keys are exactly the seven fixed utilities, each entry
holding the derived owner/tenant status and unknown when the utility is not
mentioned — never a partial or sparse mapping. -/
theorem normalized_amenities_utilities_complete (row : Row) :
    (∀ v, dget? (parseAndCleanData row) "amenities" = some v →
        amenitySkeleton? v = some AMENITY_CATEGORIES ∧
        ∃ raw, ∀ c inner, dictGet? v c = some (Value.dict inner) →
          ∀ p ∈ inner, p.2 = Value.bool (amenityFound (strLower raw) p.1)) ∧
    (∀ v, dget? (parseAndCleanData row) "utilities" = some v →
        dictKeys? v = some UTILITIES ∧
        ∃ raw, ∀ es, v = Value.dict es →
          ∀ p ∈ es, p.2 = Value.str (utilityStatus (strLower raw) p.1)) := by
  obtain ⟨ha, hu⟩ := parse_dict_fields_from_branches row
  constructor
  · intro v hv
    obtain ⟨raw, rfl⟩ := ha v hv
    refine ⟨amenitySkeleton_parseAmenities raw, raw, ?_⟩
    intro c inner hc
    exact parseAmenities_entry_values raw c inner hc
  · intro v hv
    obtain ⟨raw, rfl⟩ := hu v hv
    refine ⟨dictKeys_parseUtilities raw, raw, ?_⟩
    intro es hes
    exact parseUtilities_entry_values raw es hes

/-- Witness for the C4 theorem on a concrete row carrying an amenities cell
and a utilities cell. -/
theorem normalized_amenities_utilities_complete_witness :
    amenitySkeleton? (parseAmenities "pool and gym") = some AMENITY_CATEGORIES ∧
    dictKeys? (parseUtilities "water included") = some UTILITIES :=
  ⟨((normalized_amenities_utilities_complete
      [("Amenities", "pool and gym"), ("Utilities", "water included")]).1
      (parseAmenities "pool and gym") rfl).1,
   ((normalized_amenities_utilities_complete
      [("Amenities", "pool and gym"), ("Utilities", "water included")]).2
      (parseUtilities "water included") rfl).1⟩

/-! ### Pipeline lemmas -/

theorem chunksOf_flatten_aux (b : Nat) (hb : 0 < b) :
    ∀ (n : Nat) (l : List α), l.length ≤ n → (chunksOf b l).flatten = l := by
  intro n
  induction n with
  | zero =>
      intro l hl
      have : l = [] := List.length_eq_zero.mp (Nat.le_zero.mp hl)
      subst this
      simp [chunksOf]
  | succ n ih =>
      intro l hl
      cases l with
      | nil => simp [chunksOf]
      | cons x xs =>
          obtain ⟨m, rfl⟩ : ∃ m, b = m + 1 :=
            ⟨b - 1, (Nat.succ_pred_eq_of_pos hb).symm⟩
          rw [chunksOf, List.flatten_cons]
          have hlen : (xs.drop (m + 1 - 1)).length ≤ n := by
            simp only [List.length_drop]
            simp only [List.length_cons] at hl
            omega
          rw [ih _ hlen]
          simp only [Nat.add_sub_cancel, List.take_succ_cons]
          exact List.take_append_drop (m + 1) (x :: xs)

theorem chunksOf_flatten (b : Nat) (hb : 0 < b) (l : List α) :
    (chunksOf b l).flatten = l :=
  chunksOf_flatten_aux b hb l.length l (le_refl _)

theorem runUnits_append (geocode : String → String → Option Geo)
    (fetch : String → FetchResult) (l₁ l₂ : List HUnit)
    (acc : Counts × List UpdateOp × List Call) :
    runUnits geocode fetch (l₁ ++ l₂) acc =
      match runUnits geocode fetch l₁ acc with
      | .error e => .error e
      | .ok acc' => runUnits geocode fetch l₂ acc' := by
  induction l₁ generalizing acc with
  | nil => rfl
  | cons u t ih =>
      simp only [List.cons_append, runUnits]
      cases processUnit geocode fetch u with
      | error e => rfl
      | ok r => exact ih _

theorem runBatches_eq_runUnits (geocode : String → String → Option Geo)
    (fetch : String → FetchResult) (bss : List (List HUnit))
    (acc : Counts × List UpdateOp × List Call) :
    runBatches geocode fetch bss acc = runUnits geocode fetch bss.flatten acc := by
  induction bss generalizing acc with
  | nil => rfl
  | cons batch rest ih =>
      simp only [List.flatten_cons, runBatches, runUnits_append]
      cases runUnits geocode fetch batch acc with
      | error e => rfl
      | ok acc' => exact ih _

theorem processAllUnits_eq_runUnits (geocode : String → String → Option Geo)
    (fetch : String → FetchResult) (b : Nat) (hb : 0 < b) (units : List HUnit) :
    processAllUnits geocode fetch b units =
      runUnits geocode fetch (units.filter needsGeocoding) (Counts.zero, [], []) := by
  unfold processAllUnits
  by_cases h : (units.filter needsGeocoding).length = 0
  · rw [if_pos h, List.length_eq_zero.mp h]
    rfl
  · rw [if_neg h, runBatches_eq_runUnits, chunksOf_flatten b hb]

theorem bump_processed (c : Counts) (s : String) :
    (bump c s).processed = c.processed + (if s = "Processed" then 1 else 0) := by
  unfold bump
  split_ifs <;> simp_all

theorem bump_geocoding_failed (c : Counts) (s : String) :
    (bump c s).geocoding_failed =
      c.geocoding_failed + (if s = "Geocoding Failed" then 1 else 0) := by
  unfold bump
  split_ifs <;> simp_all

theorem bump_scraping_failed (c : Counts) (s : String) :
    (bump c s).scraping_failed =
      c.scraping_failed + (if s = "Scraping Failed" then 1 else 0) := by
  unfold bump
  split_ifs <;> simp_all

theorem bump_processed_no_scrape (c : Counts) (s : String) :
    (bump c s).processed_no_scrape =
      c.processed_no_scrape + (if s = "Processed (No Scrape)" then 1 else 0) := by
  unfold bump
  split_ifs <;> simp_all

theorem scrapeListingData_str_ok (fetch : String → FetchResult) (url : String) :
    ∃ o cs, scrapeListingData fetch (LinkCell.str url) = Except.ok (o, cs) := by
  unfold scrapeListingData
  dsimp only
  split_ifs
  · exact ⟨none, [], rfl⟩
  · cases fetch url with
    | ok d => exact ⟨some d, [.fetchCall url], rfl⟩
    | httpError code => exact ⟨_, [.fetchCall url], rfl⟩
    | connError => exact ⟨none, [.fetchCall url], rfl⟩

theorem scrapeStage_ok_status (fetch : String → FetchResult) (u : HUnit)
    (hsafe : linkSafe u = true) (upds : List UpdateOp) (calls : List Call) :
    ∃ r, scrapeStage fetch u upds calls = Except.ok r ∧
      r.1 = (if hasLink u then
               (if scrapeOk fetch u then "Processed" else "Scraping Failed")
             else "Processed (No Scrape)") := by
  unfold scrapeStage hasLink scrapeOk
  cases hl : u.listing_link with
  | none => exact ⟨("Processed (No Scrape)", upds, calls), by simp [LinkCell.truthy], rfl⟩
  | nan => exact absurd hsafe (by simp [linkSafe, hl])
  | str url =>
      by_cases hu : url = ""
      · subst hu
        exact ⟨("Processed (No Scrape)", upds, calls), by simp [LinkCell.truthy], rfl⟩
      · obtain ⟨o, cs, hs⟩ := scrapeListingData_str_ok fetch url
        cases o with
        | none =>
            refine ⟨("Scraping Failed", upds, calls ++ cs), ?_, ?_⟩
            · simp [LinkCell.truthy, hu, hs]
            · simp [LinkCell.truthy, hu, hs]
        | some d =>
            by_cases hoff : pyEqStr (dget? d "status") "off_market" = true
            · refine ⟨("Processed",
                  upds ++ [.updateUnit u.id [("status", Value.str "off_market")]],
                  calls ++ cs), ?_, ?_⟩
              · simp [LinkCell.truthy, hu, hs, hoff]
              · simp [LinkCell.truthy, hu, hs]
            · refine ⟨("Processed", upds ++ [.updateUnit u.id d], calls ++ cs), ?_, ?_⟩
              · simp [LinkCell.truthy, hu, hs, hoff]
              · simp [LinkCell.truthy, hu, hs]

theorem processUnit_ok_status (geocode : String → String → Option Geo)
    (fetch : String → FetchResult) (u : HUnit) (hsafe : linkSafe u = true) :
    ∃ r, processUnit geocode fetch u = Except.ok r ∧
      r.1 = (if geoFails geocode u then "Geocoding Failed"
             else if hasLink u then
               (if scrapeOk fetch u then "Processed" else "Scraping Failed")
             else "Processed (No Scrape)") := by
  unfold processUnit
  cases hl : u.latitude.isNull with
  | false =>
      obtain ⟨r, hr, hst⟩ := scrapeStage_ok_status fetch u hsafe [] []
      refine ⟨r, by simp [hl, hr], ?_⟩
      rw [hst]
      have hgf : geoFails geocode u = false := by simp [geoFails, hl]
      simp [hgf]
  | true =>
      cases hg : geocode u.property_address u.zip_code with
      | none =>
          refine ⟨("Geocoding Failed", [.logGeocodingFailure u.id],
              [.geocodeCall u.property_address u.zip_code]), by simp [hl, hg], ?_⟩
          have hgf : geoFails geocode u = true := by simp [geoFails, hl, hg]
          simp [hgf]
      | some g =>
          obtain ⟨r, hr, hst⟩ := scrapeStage_ok_status fetch u hsafe
            [.updateUnit u.id (coordsDoc g)]
            [.geocodeCall u.property_address u.zip_code]
          refine ⟨r, by simp [hl, hg, hr], ?_⟩
          rw [hst]
          have hgf : geoFails geocode u = false := by simp [geoFails, hl, hg]
          simp [hgf]

theorem runUnits_ok_counts (geocode : String → String → Option Geo)
    (fetch : String → FetchResult) :
    ∀ (l : List HUnit) (acc : Counts × List UpdateOp × List Call),
      (∀ u ∈ l, linkSafe u = true) →
      ∃ r, runUnits geocode fetch l acc = Except.ok r ∧
        r.1.processed = acc.1.processed +
          l.countP (fun u => okWithStatus (processUnit geocode fetch u) "Processed") ∧
        r.1.geocoding_failed = acc.1.geocoding_failed +
          l.countP (fun u => okWithStatus (processUnit geocode fetch u) "Geocoding Failed") ∧
        r.1.scraping_failed = acc.1.scraping_failed +
          l.countP (fun u => okWithStatus (processUnit geocode fetch u) "Scraping Failed") ∧
        r.1.processed_no_scrape = acc.1.processed_no_scrape +
          l.countP (fun u => okWithStatus (processUnit geocode fetch u) "Processed (No Scrape)") := by
  intro l
  induction l with
  | nil =>
      intro acc _
      exact ⟨acc, rfl, by simp, by simp, by simp, by simp⟩
  | cons u t ih =>
      intro acc h
      obtain ⟨ru, hru, -⟩ :=
        processUnit_ok_status geocode fetch u (h u (List.mem_cons_self u t))
      obtain ⟨r, hr, hp, hg, hs, hn⟩ :=
        ih (bump acc.1 ru.1, acc.2.1 ++ ru.2.1, acc.2.2 ++ ru.2.2)
          (fun x hx => h x (List.mem_cons_of_mem u hx))
      refine ⟨r, ?_, ?_, ?_, ?_, ?_⟩
      · simp only [runUnits, hru]
        exact hr
      · simp only [bump_processed] at hp
        rw [List.countP_cons, hp]
        simp only [okWithStatus, hru]
        by_cases hx : ru.1 = "Processed" <;> simp [hx] <;> omega
      · simp only [bump_geocoding_failed] at hg
        rw [List.countP_cons, hg]
        simp only [okWithStatus, hru]
        by_cases hx : ru.1 = "Geocoding Failed" <;> simp [hx] <;> omega
      · simp only [bump_scraping_failed] at hs
        rw [List.countP_cons, hs]
        simp only [okWithStatus, hru]
        by_cases hx : ru.1 = "Scraping Failed" <;> simp [hx] <;> omega
      · simp only [bump_processed_no_scrape] at hn
        rw [List.countP_cons, hn]
        simp only [okWithStatus, hru]
        by_cases hx : ru.1 = "Processed (No Scrape)" <;> simp [hx] <;> omega

theorem processUnit_status_one (geocode : String → String → Option Geo)
    (fetch : String → FetchResult) (u : HUnit) (hsafe : linkSafe u = true) :
    (okWithStatus (processUnit geocode fetch u) "Processed").toNat +
    (okWithStatus (processUnit geocode fetch u) "Geocoding Failed").toNat +
    (okWithStatus (processUnit geocode fetch u) "Scraping Failed").toNat +
    (okWithStatus (processUnit geocode fetch u) "Processed (No Scrape)").toNat = 1 := by
  obtain ⟨r, hr, hst⟩ := processUnit_ok_status geocode fetch u hsafe
  rw [hr]
  simp only [okWithStatus]
  rw [hst]
  split_ifs <;> decide

theorem countP_four_partition (l : List α) (p1 p2 p3 p4 : α → Bool)
    (h : ∀ a ∈ l, (p1 a).toNat + (p2 a).toNat + (p3 a).toNat + (p4 a).toNat = 1) :
    l.countP p1 + l.countP p2 + l.countP p3 + l.countP p4 = l.length := by
  induction l with
  | nil => simp
  | cons a t ih =>
      have ha := h a (List.mem_cons_self a t)
      have ht := ih (fun x hx => h x (List.mem_cons_of_mem a hx))
      simp only [List.countP_cons, List.length_cons]
      rcases hb1 : p1 a <;> rcases hb2 : p2 a <;> rcases hb3 : p3 a <;>
        rcases hb4 : p4 a <;> simp_all <;> omega


/-- C3 counterexample: a single selected unit whose listing_link cell is
NaN.  NaN is truthy, so _process_unit calls _scrape_listing_data, which
raises AttributeError when startswith is evaluated on the float; nothing
catches it, future.result() re-raises it inside process_all_units, and the
pass aborts with the exception instead of reporting any outcome counts, so
the counts cannot assign this unit one of the four outcomes or sum to N. -/
theorem pipeline_crashes_on_nan_link :
    processAllUnits (fun _ _ => some ⟨34, -118, "resolved"⟩)
      (fun _ => FetchResult.connError) 4 [c3NanUnit] =
      Except.error PyError.attributeError := by
  rw [processAllUnits_eq_runUnits _ _ 4 (by decide) _]
  rfl

/-- C3 amended: a pass over selected units whose listing cells are all safe
(absent or a string, never the NaN cell that crashes the pass) returns
outcome counts in which each unit receives exactly one of the four
outcomes, so the four counters sum to the number N of units needing
geocoding; and when additionally every selected unit that survives
geocoding and has a listing link scrapes successfully, the pass reports
geocoding_failed equal to the number M of geocode failures, processed equal
to the number K of surviving units with a link, scraping_failed zero, and
processed_no_scrape equal to N - M - K. -/
theorem pipeline_outcome_accounting
    (geocode : String → String → Option Geo) (fetch : String → FetchResult)
    (b : Nat) (units : List HUnit) (hb : 0 < b)
    (hsafe : ∀ u ∈ units.filter needsGeocoding, linkSafe u = true) :
    ∃ c upds calls,
      processAllUnits geocode fetch b units = Except.ok (c, upds, calls) ∧
      (c.processed + c.geocoding_failed + c.scraping_failed + c.processed_no_scrape =
        (units.filter needsGeocoding).length) ∧
      ((∀ u ∈ units.filter needsGeocoding,
          geoFails geocode u = false → hasLink u = true → scrapeOk fetch u = true) →
        c.geocoding_failed = (units.filter needsGeocoding).countP (geoFails geocode) ∧
        c.processed = (units.filter needsGeocoding).countP
          (fun u => !geoFails geocode u && hasLink u) ∧
        c.scraping_failed = 0 ∧
        c.processed_no_scrape = (units.filter needsGeocoding).length -
          (units.filter needsGeocoding).countP (geoFails geocode) -
          (units.filter needsGeocoding).countP
            (fun u => !geoFails geocode u && hasLink u)) := by
  rw [processAllUnits_eq_runUnits geocode fetch b hb units]
  obtain ⟨r, hr, hp, hg, hs, hn⟩ :=
    runUnits_ok_counts geocode fetch (units.filter needsGeocoding)
      (Counts.zero, [], []) hsafe
  rcases r with ⟨c, upds, calls⟩
  simp only [Counts.zero, Nat.zero_add] at hp hg hs hn
  have hsum : (units.filter needsGeocoding).countP
        (fun u => okWithStatus (processUnit geocode fetch u) "Processed") +
      (units.filter needsGeocoding).countP
        (fun u => okWithStatus (processUnit geocode fetch u) "Geocoding Failed") +
      (units.filter needsGeocoding).countP
        (fun u => okWithStatus (processUnit geocode fetch u) "Scraping Failed") +
      (units.filter needsGeocoding).countP
        (fun u => okWithStatus (processUnit geocode fetch u) "Processed (No Scrape)") =
      (units.filter needsGeocoding).length :=
    countP_four_partition _ _ _ _ _
      (fun u hu => processUnit_status_one geocode fetch u (hsafe u hu))
  refine ⟨c, upds, calls, hr, ?_, ?_⟩
  · rw [hp, hg, hs, hn]
    omega
  · intro hok
    have hgf : (units.filter needsGeocoding).countP
        (fun u => okWithStatus (processUnit geocode fetch u) "Geocoding Failed") =
        (units.filter needsGeocoding).countP (geoFails geocode) := by
      apply List.countP_congr
      intro u hu
      obtain ⟨ru, hru, hst⟩ := processUnit_ok_status geocode fetch u (hsafe u hu)
      rw [hru]
      simp only [okWithStatus]
      rw [hst]
      cases hgu : geoFails geocode u
      · simp only [Bool.false_eq_true, if_false]
        split_ifs <;> decide
      · simp [hgu]
    have hpr : (units.filter needsGeocoding).countP
        (fun u => okWithStatus (processUnit geocode fetch u) "Processed") =
        (units.filter needsGeocoding).countP
          (fun u => !geoFails geocode u && hasLink u) := by
      apply List.countP_congr
      intro u hu
      obtain ⟨ru, hru, hst⟩ := processUnit_ok_status geocode fetch u (hsafe u hu)
      rw [hru]
      simp only [okWithStatus]
      rw [hst]
      cases hgu : geoFails geocode u
      · cases hlu : hasLink u
        · simp [hgu, hlu]
        · have := hok u hu hgu hlu
          simp [hgu, hlu, this]
      · simp [hgu]
    have hsf : (units.filter needsGeocoding).countP
        (fun u => okWithStatus (processUnit geocode fetch u) "Scraping Failed") = 0 := by
      rw [List.countP_eq_zero]
      intro u hu
      obtain ⟨ru, hru, hst⟩ := processUnit_ok_status geocode fetch u (hsafe u hu)
      rw [hru]
      simp only [okWithStatus]
      rw [hst]
      cases hgu : geoFails geocode u
      · cases hlu : hasLink u
        · simp [hgu, hlu]
        · have := hok u hu hgu hlu
          simp [hgu, hlu, this]
      · simp [hgu]
    refine ⟨by rw [hg, hgf], by rw [hp, hpr], by rw [hs, hsf], ?_⟩
    rw [hn]
    rw [hgf, hpr, hsf] at hsum
    omega

/-- Witness for the C3 amended theorem: four concrete safe units, one
geocode failure, one scraped unit, one unit without a link, one
already-geocoded unit. -/
theorem pipeline_outcome_accounting_witness :
    ∃ c upds calls,
      processAllUnits c3Geocode c3Fetch 4 c3Units = Except.ok (c, upds, calls) ∧
      c.geocoding_failed = 1 ∧ c.processed = 1 ∧
      c.scraping_failed = 0 ∧ c.processed_no_scrape = 1 := by
  obtain ⟨c, upds, calls, hok, hsum, himp⟩ :=
    pipeline_outcome_accounting c3Geocode c3Fetch 4 c3Units (by decide) (by decide)
  obtain ⟨h1, h2, h3, h4⟩ := himp (by decide)
  refine ⟨c, upds, calls, hok, ?_, ?_, h3, ?_⟩
  · rw [h1]; decide
  · rw [h2]; decide
  · rw [h4]; decide

/-- C5: the claim asserts a 404-equivalent not-found response is stored as
status off_market and counted processed.  The code checks the truthiness of
the response object attached to the raised error, and a 404 response is
falsy, so the off-market branch never fires: a 404 yields no store write
and the unit is counted as scraping_failed.  Evaluated here on a concrete
unit whose fetch returns HTTP 404. -/
theorem http404_counts_scraping_failed :
    processUnit (fun _ _ => none) (fun _ => .httpError 404)
      { id := some "u1", property_address := "1 Main St", zip_code := "90001",
        listing_link := .str "http://listing.example/1",
        latitude := .num 34 } =
    Except.ok ("Scraping Failed", [], [.fetchCall "http://listing.example/1"]) := rfl

/-- C6: when every unit in the input set already has a numeric latitude, a
pass returns all-zero counts with no store writes and no external calls,
whatever the geocoding and enrichment clients would answer. -/
theorem noop_pass_all_zero (geocode : String → String → Option Geo)
    (fetch : String → FetchResult) (b : Nat) (units : List HUnit)
    (h : ∀ u ∈ units, ∃ q, u.latitude = PdVal.num q) :
    processAllUnits geocode fetch b units = Except.ok (Counts.zero, [], []) := by
  have hf : units.filter needsGeocoding = [] := by
    rw [List.filter_eq_nil]
    intro u hu
    obtain ⟨q, hq⟩ := h u hu
    simp [needsGeocoding, PdVal.coerceIsNull, hq]
  unfold processAllUnits
  rw [hf]
  rfl

/-- Witness for the C6 theorem on a singleton unit with numeric latitude and
oracles that would answer if consulted. -/
theorem noop_pass_all_zero_witness :
    processAllUnits (fun _ _ => some ⟨1, 2, "x"⟩) (fun _ => .connError) 4
      [{ id := some "u9", property_address := "9 Done St", zip_code := "90009",
         listing_link := .str "http://listing.example/9",
         latitude := .num 34 }] = Except.ok (Counts.zero, [], []) :=
  noop_pass_all_zero _ _ 4 _ (by
    intro u hu
    simp only [List.mem_singleton] at hu
    subst hu
    exact ⟨34, rfl⟩)

/-- C10: a unit reaching the scraping stage whose nonempty string listing
link does not start with http gets no enrichment request, is reported as
scraping_failed, and receives no store write from the scraping stage: with
coordinates already present the whole step performs no write and no call,
and when the unit was geocoded this pass only the coordinate write and the
geocode call of the geocoding stage remain. -/
theorem non_http_link_scraping_failed (geocode : String → String → Option Geo)
    (fetch : String → FetchResult) (u : HUnit) (url : String)
    (hl : u.listing_link = LinkCell.str url) (hne : url ≠ "")
    (hh : pyStartsWith url "http" = false) :
    (u.latitude.isNull = false →
      processUnit geocode fetch u = Except.ok ("Scraping Failed", [], [])) ∧
    (u.latitude.isNull = true → ∀ g,
      geocode u.property_address u.zip_code = some g →
      processUnit geocode fetch u =
        Except.ok ("Scraping Failed", [.updateUnit u.id (coordsDoc g)],
         [.geocodeCall u.property_address u.zip_code])) := by
  have hscrape : scrapeListingData fetch (LinkCell.str url) = Except.ok (none, []) := by
    simp [scrapeListingData, hh]
  constructor
  · intro hlat
    unfold processUnit
    rw [hlat]
    simp only [Bool.false_eq_true, if_false]
    unfold scrapeStage
    rw [hl]
    simp [hne, hscrape, LinkCell.truthy]
  · intro hlat g hg
    unfold processUnit
    rw [hlat, hg]
    simp only [if_true]
    unfold scrapeStage
    rw [hl]
    simp [hne, hscrape, LinkCell.truthy]

/-- Witness for the C10 theorem on a concrete already-geocoded unit with a
schemeless link. -/
theorem non_http_link_scraping_failed_witness :
    processUnit (fun _ _ => none) (fun _ => .connError)
      { id := some "u5", property_address := "5 Main St", zip_code := "90005",
        listing_link := .str "www.listing.example/5", latitude := .num 34 } =
      Except.ok ("Scraping Failed", [], []) :=
  (non_http_link_scraping_failed (fun _ _ => none) (fun _ => .connError)
      { id := some "u5", property_address := "5 Main St", zip_code := "90005",
        listing_link := .str "www.listing.example/5", latitude := .num 34 }
      "www.listing.example/5" rfl (by decide) (by decide)).1 rfl

theorem nodup_keys_parse (row : Row) :
    ((parseAndCleanData row).map Prod.fst).Nodup := by
  unfold parseAndCleanData
  apply nodup_keys_dset
  suffices h : ∀ (rs : Row) (acc : Doc), (acc.map Prod.fst).Nodup →
      ((rs.foldl (fun acc kv =>
        if kv.2 = "" then acc
        else
          match parseField (cleanKeyOf kv.1) kv.2 with
          | some (k, v) => dset acc k v
          | none => acc) acc).map Prod.fst).Nodup by
    exact h row [] (by simp)
  intro rs
  induction rs with
  | nil => intro acc h; exact h
  | cons kv t ih =>
      intro acc h
      rw [List.foldl_cons]
      by_cases he : kv.2 = ""
      · rw [if_pos he]
        exact ih acc h
      · rw [if_neg he]
        cases hp : parseField (cleanKeyOf kv.1) kv.2 with
        | none => exact ih acc h
        | some p =>
            cases p with
            | mk k val => exact ih _ (nodup_keys_dset acc k val h)

/-- C1: for a row whose derived identity already exists in the store, the
bulk upload counts an update, not an insert, and the update it applies sets
status to available and carries the favorite value already stored on the
document, so a refresh leaves the favorite flag unchanged whatever it was
set to between the two uploads. -/
theorem upload_refresh_preserves_favorite (now : String) (store : Store)
    (row : Row) (e : Doc) (fv : Value)
    (ha : pyStrip (rget (normalizeColumns row) "property_address" "") ≠ "")
    (hz : pyStrip (rget (normalizeColumns row) "zip_code" "") ≠ "")
    (he : sget? store (rowDocId now row) = some e)
    (hf : dget? e "favorite" = some fv) :
    (uploadFromDataframe now store [row]).2 = (0, 1) ∧
    ∃ d', sget? (uploadFromDataframe now store [row]).1 (rowDocId now row) = some d' ∧
      dget? d' "favorite" = some fv ∧
      dget? d' "status" = some (Value.str "available") := by
  unfold rowDocId at he
  unfold uploadFromDataframe
  simp only [List.foldl_cons, List.foldl_nil]
  simp only [uploadRow]
  rw [if_neg (by push_neg; exact ⟨ha, hz⟩)]
  rw [he]
  simp only []
  rw [hf]
  have hnodup : ((dset (dset (dset (parseAndCleanData (normalizeColumns row))
      "last_seen_date" (Value.str now)) "status" (Value.str "available"))
      "favorite" fv).map Prod.fst).Nodup :=
    nodup_keys_dset _ _ _ (nodup_keys_dset _ _ _ (nodup_keys_dset _ _ _
      (nodup_keys_parse _)))
  refine ⟨trivial, dmerge e (dset (dset (dset (parseAndCleanData (normalizeColumns row))
      "last_seen_date" (Value.str now)) "status" (Value.str "available")) "favorite" fv),
      ?_, ?_, ?_⟩
  · unfold rowDocId
    exact sget_sset_self store _ _
  · exact dget_dmerge_of_some _ e "favorite" fv hnodup (dget_dset_self _ _ _)
  · refine dget_dmerge_of_some _ e "status" (Value.str "available") hnodup ?_
    rw [dget_dset_ne _ _ _ _ (by decide)]
    exact dget_dset_self _ _ _

/-- Witness for the C1 theorem: a concrete refresh of a stored unit whose
favorite flag had been set to true keeps it true and resets status to
available, reported as one update and zero inserts. -/
theorem upload_refresh_preserves_favorite_witness :
    (uploadFromDataframe "t0" c1Store [c1Row]).2 = (0, 1) ∧
    ∃ d', sget? (uploadFromDataframe "t0" c1Store [c1Row]).1 (rowDocId "t0" c1Row)
        = some d' ∧
      dget? d' "favorite" = some (Value.bool true) ∧
      dget? d' "status" = some (Value.str "available") :=
  upload_refresh_preserves_favorite "t0" c1Store c1Row
    [("favorite", Value.bool true)] (Value.bool true)
    (by decide) (by decide) rfl rfl

/-- C7 counterexample: the bulk upload returns only the insert and update
counters, and a skipped malformed row (missing address and zip) leaves them
untouched, so two inputs differing in one skipped row produce identical
results: the number of skipped rows is not reported to the caller. -/
theorem skipped_rows_unreported :
    uploadFromDataframe "t0" []
      [[("Property Address", "1 A St"), ("Zip Code", "90001")], [("Unit", "7")]] =
    uploadFromDataframe "t0" []
      [[("Property Address", "1 A St"), ("Zip Code", "90001")]] := rfl

/-- C7 amended: rows missing the address or zip identity fields are skipped
without any dedicated counter; the call reports only (inserted, updated),
and these two counters together account exactly for the well-formed rows,
so a caller can recover the skipped count only by subtracting them from the
total row count. -/
theorem upsert_counts_account_wellformed_rows (now : String) (store : Store)
    (rows : List Row) :
    (uploadFromDataframe now store rows).2.1 + (uploadFromDataframe now store rows).2.2 =
      (rows.filter rowWellFormed).length := by
  unfold uploadFromDataframe
  suffices h : ∀ (rs : List Row) (st : UploadState),
      (rs.foldl (fun st row => uploadRow now st (normalizeColumns row)) st).insertCount +
      (rs.foldl (fun st row => uploadRow now st (normalizeColumns row)) st).updateCount =
      st.insertCount + st.updateCount + (rs.filter rowWellFormed).length by
    simpa using h rows ⟨store, 0, 0⟩
  intro rs
  induction rs with
  | nil => intro st; simp
  | cons r t ih =>
      intro st
      rw [List.foldl_cons, ih, List.filter_cons]
      simp only [uploadRow]
      by_cases hc : (pyStrip (rget (normalizeColumns r) "property_address" "") = "" ∨
          pyStrip (rget (normalizeColumns r) "zip_code" "") = "")
      · rw [if_pos hc]
        have hwf : rowWellFormed r = false := by
          unfold rowWellFormed
          rcases hc with h | h <;> simp [h]
        simp [hwf]
      · rw [if_neg hc]
        push_neg at hc
        have hwf : rowWellFormed r = true := by
          unfold rowWellFormed
          simp [hc.1, hc.2]
        cases hm : sget? st.store (sanitizeUnitId now
            (pyStrip (rget (normalizeColumns r) "property_address" ""))
            (pyStrip (rget (normalizeColumns r) "unit" ""))
            (pyStrip (rget (normalizeColumns r) "zip_code" ""))) with
        | none => simp [hm, hwf]; omega
        | some e => simp [hm, hwf]; omega

end HousingMap
